import Mathlib

/-!
Verification development for the PPM API-key management service
(`src/api-keys/api-keys.service.ts`, the revision wired to
`api-keys.controller.ts` and `api-keys.service.spec.ts`: the service whose
`generate` returns `{ apiKey, rawKey }`, whose `list` returns the documents
with `keyHash` deselected, and whose `rotate` calls `generate` first and then
revokes the old key, without a MongoDB transaction).

The service state (the `apikeys` and `accesslogs` MongoDB collections) is
embedded as a `Store`; each service method becomes a pure function from a
store (plus the ambient inputs the real code reads: the clock, the random
bytes consumed by `crypto.randomUUID` and by bcrypt's salt generation) to an
`Except` of the thrown HTTP exception or the result.

MongoDB `_id` values are modelled as the 24-character lowercase-hex strings
that MongoDB ObjectIds stringify to, produced injectively from a per-store
counter (`Store.nextId`), mirroring that MongoDB assigns a fresh distinct id
to every inserted document.
-/

namespace PPM

/-- Hex digit character for a value `d < 16` (0-9 then a-f),
matching MongoDB ObjectId hex strings. -/
def hexChar (d : Nat) : Char :=
  if d < 10 then Char.ofNat (48 + d) else Char.ofNat (87 + d)

/-- Numeric value of a hex digit character (inverse of `hexChar` on `d < 16`). -/
def hexVal (c : Char) : Nat :=
  if 97 ≤ c.toNat then c.toNat - 87 else c.toNat - 48

/-- Hex digits of `n`, least significant first, with structural fuel
(`fuel ≥ n` suffices since the argument at least halves each step). -/
def natToHexAux : Nat → Nat → List Char
  | 0, _ => []
  | _ + 1, 0 => []
  | fuel + 1, n + 1 => hexChar ((n + 1) % 16) :: natToHexAux fuel ((n + 1) / 16)

/-- Hex digits of `n`, least significant first (`[]` for `0`). -/
def natToHexRev (n : Nat) : List Char :=
  natToHexAux n n

/-- Decode a least-significant-first hex digit list. -/
def decodeRev : List Char → Nat
  | [] => 0
  | c :: cs => hexVal c + 16 * decodeRev cs

/-- A fresh 24-character hex document id for counter value `n`
(zero-padded on the most significant side, like an ObjectId string). -/
def mkId (n : Nat) : String :=
  String.mk (List.replicate (24 - (natToHexRev n).length) (Char.ofNat 48)
    ++ (natToHexRev n).reverse)

theorem hexVal_hexChar (d : Nat) (h : d < 16) : hexVal (hexChar d) = d := by
  interval_cases d <;> decide

theorem decodeRev_natToHexAux :
    ∀ (fuel n : Nat), n ≤ fuel → decodeRev (natToHexAux fuel n) = n := by
  intro fuel
  induction fuel with
  | zero =>
    intro n hn
    interval_cases n
    rfl
  | succ fuel ih =>
    intro n hn
    match n with
    | 0 => rfl
    | n + 1 =>
      have hdiv : (n + 1) / 16 ≤ fuel := by
        have := Nat.div_lt_self (Nat.succ_pos n) (show 1 < 16 by omega)
        omega
      rw [natToHexAux, decodeRev,
        hexVal_hexChar _ (Nat.mod_lt _ (by omega)), ih _ hdiv]
      omega

theorem decodeRev_natToHexRev (n : Nat) : decodeRev (natToHexRev n) = n :=
  decodeRev_natToHexAux n n (Nat.le_refl n)

theorem decodeRev_append_zeros (xs : List Char) (k : Nat) :
    decodeRev (xs ++ List.replicate k (Char.ofNat 48)) = decodeRev xs := by
  induction xs with
  | nil =>
    simp only [List.nil_append]
    induction k with
    | zero => rfl
    | succ k ih => simpa [List.replicate_succ, decodeRev, hexVal] using ih
  | cons c cs ih => simp [decodeRev, ih]

/-- Decode a most-significant-first id string back to its counter value. -/
def decodeId (s : String) : Nat :=
  decodeRev s.data.reverse

theorem decodeId_mkId (n : Nat) : decodeId (mkId n) = n := by
  unfold decodeId mkId
  rw [show (String.mk (List.replicate (24 - (natToHexRev n).length) (Char.ofNat 48)
      ++ (natToHexRev n).reverse)).data
    = List.replicate (24 - (natToHexRev n).length) (Char.ofNat 48)
      ++ (natToHexRev n).reverse from rfl]
  rw [List.reverse_append, List.reverse_reverse, List.reverse_replicate]
  rw [decodeRev_append_zeros, decodeRev_natToHexRev]

theorem mkId_injective : Function.Injective mkId := by
  intro a b h
  have := congrArg decodeId h
  rwa [decodeId_mkId, decodeId_mkId] at this

/-- `ApiKeyStatus` enum from `schemas/api-key.schema.ts` (as used by the
service: the only two statuses ever read or written are ACTIVE and REVOKED). -/
inductive ApiKeyStatus
  | ACTIVE
  | REVOKED
deriving DecidableEq

/-- `AccessAction` enum from `schemas/access-log.schema.ts` as used by the
service and named by the spec (GENERATED, REVOKED, ROTATED, USED). -/
inductive AccessAction
  | GENERATED
  | REVOKED
  | ROTATED
  | USED
deriving DecidableEq

/-- Result of `bcrypt.hash(input, cost)`: a salted adaptive hash.  The model
records the hashed input, the randomly generated salt bcrypt draws, and the
cost factor (log2 rounds). -/
structure BcryptHash where
  input : String
  salt : String
  cost : Nat
deriving DecidableEq

/-- An `apikeys` document (`ApiKey` schema), with the fields the service
reads and writes: `keyHash`, `keyPrefix`, `name`, `userId`, `status`,
`expiresAt`, `revokedAt`, plus the mongoose-managed `_id` and `createdAt`.
Timestamps are modelled as naturals; `null` becomes `none`. -/
structure ApiKeyRec where
  id : String
  keyHash : BcryptHash
  keyPrefix : String
  name : String
  userId : String
  status : ApiKeyStatus
  expiresAt : Option Nat
  revokedAt : Option Nat
  createdAt : Nat
deriving DecidableEq

/-- An `accesslogs` document (`AccessLog` schema) as written by
`logAccess` / `rotate`: referenced key id, owner id, action, optional source
address, and an open metadata map (values may be `undefined`, hence
`Option String`). -/
structure AccessLogRec where
  apiKeyId : String
  userId : String
  action : AccessAction
  ipAddress : Option String
  metadata : List (String × Option String)
deriving DecidableEq

/-- The persistent state: both collections plus the fresh-id counter
standing for MongoDB's ObjectId generation. -/
structure Store where
  keys : List ApiKeyRec
  logs : List AccessLogRec
  nextId : Nat
deriving DecidableEq

def emptyStore : Store := { keys := [], logs := [], nextId := 0 }

/-- The HTTP exceptions the service throws, as typed error kinds
(spec section 7 names): `QuotaExceeded` is the BadRequest "Maximum of 3
active API keys allowed", `InvalidIdentity` the BadRequest "Invalid API key
ID", `NotFound` the NotFoundException, `AccessDenied` the
ForbiddenException, `AlreadyRevoked` the BadRequest "API key is already
revoked", `CannotRotateRevoked` the BadRequest "Cannot rotate a revoked API
key". -/
inductive ApiError
  | QuotaExceeded
  | InvalidIdentity
  | NotFound
  | AccessDenied
  | AlreadyRevoked
  | CannotRotateRevoked
deriving DecidableEq

deriving instance DecidableEq for Except

/-- `MAX_ACTIVE_KEYS` constant (line 17 resp. 291 of the service file). -/
def MAX_ACTIVE_KEYS : Nat := 3

/-- The filter of `countDocuments({ userId, status: ApiKeyStatus.ACTIVE })`. -/
def isActiveFor (userId : String) (k : ApiKeyRec) : Bool :=
  decide (k.userId = userId ∧ k.status = ApiKeyStatus.ACTIVE)

/-- `this.apiKeyModel.countDocuments({ userId, status: ACTIVE })`. -/
def countActive (ks : List ApiKeyRec) (userId : String) : Nat :=
  ks.countP (isActiveFor userId)

/-- `Types.ObjectId.isValid` on a string argument: a 24-character hex string
(either case) or any 12-character string. -/
def isValidObjectId (s : String) : Bool :=
  (s.length = 24 && s.data.all fun c =>
      (48 ≤ c.toNat && c.toNat ≤ 57) || (97 ≤ c.toNat && c.toNat ≤ 102)
        || (65 ≤ c.toNat && c.toNat ≤ 70))
    || s.length = 12

/-- JavaScript `ipAddress || undefined` (empty string is falsy). -/
def normIp : Option String → Option String
  | some s => if s = "" then none else some s
  | none => none

/-- `logAccess` (service lines 448-462): append one access-log document. -/
def logAccess (s : Store) (apiKeyId userId : String) (action : AccessAction)
    (ipAddress : Option String) (metadata : List (String × Option String)) :
    Store :=
  { s with logs := s.logs ++
      [{ apiKeyId := apiKeyId, userId := userId, action := action,
         ipAddress := normIp ipAddress, metadata := metadata }] }

/-- `substring(0, n)` of an ASCII string. -/
def strTake (s : String) (n : Nat) : String :=
  String.mk (s.data.take n)

/-- The document built by `generate`'s `apiKeyModel.create` call (service
lines 321-333): raw key `ppm_` + the 32 hex chars of a dashless UUID v4
(modelled by the oracle input `rand`), key prefix = first 12 characters of
the raw key, hash = `bcrypt.hash(rawKey, 10)` with bcrypt's random salt
(oracle input `salt`), status ACTIVE, `expiresAt: null`, fresh `_id` and
`createdAt` from the ambient clock `now`. -/
def genRec (s : Store) (userId name rand salt : String) (now : Nat) :
    ApiKeyRec :=
  { id := mkId s.nextId
    keyHash := { input := "ppm_" ++ rand, salt := salt, cost := 10 }
    keyPrefix := strTake ("ppm_" ++ rand) 12
    name := name
    userId := userId
    status := ApiKeyStatus.ACTIVE
    expiresAt := none
    revokedAt := none
    createdAt := now }

/-- `generate` (service lines 304-339): enforce the active-key quota, then
insert the new key document and append a GENERATED audit log, returning the
document and the raw key. -/
def generate (s : Store) (userId name rand salt : String) (now : Nat)
    (ipAddress : Option String) :
    Except ApiError (Store × ApiKeyRec × String) :=
  if MAX_ACTIVE_KEYS ≤ countActive s.keys userId then
    .error .QuotaExceeded
  else
    let apiKey := genRec s userId name rand salt now
    let s1 : Store := { s with keys := s.keys ++ [apiKey],
                               nextId := s.nextId + 1 }
    .ok (logAccess s1 apiKey.id userId .GENERATED ipAddress [],
         apiKey, "ppm_" ++ rand)

/-- `findKeyOrFail` (service lines 427-443): validate the id, look the
document up, and check ownership, in that order. -/
def findKeyOrFail (s : Store) (keyId userId : String) :
    Except ApiError ApiKeyRec :=
  if !isValidObjectId keyId then
    .error .InvalidIdentity
  else
    match s.keys.find? fun k => decide (k.id = keyId) with
    | none => .error .NotFound
    | some apiKey =>
        if apiKey.userId ≠ userId then .error .AccessDenied
        else .ok apiKey

/-- `document.save()` on a document with id `id`: persist the updated
document `k'` in place of the stored one with the same `_id`. -/
def updateKey (ks : List ApiKeyRec) (id : String) (k' : ApiKeyRec) :
    List ApiKeyRec :=
  ks.map fun k => if k.id = id then k' else k

/-- `revoke` (service lines 356-382): find and authorize the key, reject if
already revoked, else set status REVOKED and `revokedAt`, save, and append a
REVOKED audit log with the optional reason. -/
def revoke (s : Store) (userId keyId : String) (reason : Option String)
    (now : Nat) (ipAddress : Option String) :
    Except ApiError (Store × ApiKeyRec) :=
  match findKeyOrFail s keyId userId with
  | .error e => .error e
  | .ok apiKey =>
    if apiKey.status = ApiKeyStatus.REVOKED then
      .error .AlreadyRevoked
    else
      let apiKey' := { apiKey with status := ApiKeyStatus.REVOKED,
                                   revokedAt := some now }
      let s1 : Store := { s with keys := updateKey s.keys apiKey.id apiKey' }
      .ok (logAccess s1 apiKey.id userId .REVOKED ipAddress
             [("reason", reason)],
           apiKey')

/-- `dto.name || oldName + ' (rotated)'` (service line 400): JavaScript
falsy test, so an absent name and the empty string both fall back. -/
def rotateNewName (dtoName : Option String) (oldName : String) : String :=
  match dtoName with
  | some n => if n = "" then oldName ++ " (rotated)" else n
  | none => oldName ++ " (rotated)"

/-- `rotate` (service lines 387-422): find and authorize the old key and
reject if revoked; then call `generate` for the new key (quota check
included, the old key still counting as active); then set the old key
REVOKED and save it; then append a ROTATED audit log pointing at the new
key id. -/
def rotate (s : Store) (userId keyId : String) (dtoName : Option String)
    (rand salt : String) (now : Nat) (ipAddress : Option String) :
    Except ApiError (Store × ApiKeyRec × String × ApiKeyRec) :=
  match findKeyOrFail s keyId userId with
  | .error e => .error e
  | .ok oldApiKey =>
    if oldApiKey.status = ApiKeyStatus.REVOKED then
      .error .CannotRotateRevoked
    else
      match generate s userId (rotateNewName dtoName oldApiKey.name)
          rand salt now ipAddress with
      | .error e => .error e
      | .ok (s1, newApiKey, rawKey) =>
        let oldApiKey' := { oldApiKey with status := ApiKeyStatus.REVOKED,
                                           revokedAt := some now }
        let s2 : Store :=
          { s1 with keys := updateKey s1.keys oldApiKey.id oldApiKey' }
        .ok (logAccess s2 oldApiKey.id userId .ROTATED ipAddress
               [("newKeyId", some newApiKey.id)],
             newApiKey, rawKey, oldApiKey')

/-- The view of a key document with `keyHash` deselected
(`.select('-keyHash')` in `list`; also the shape the controller returns). -/
structure ApiKeyView where
  id : String
  name : String
  keyPrefix : String
  status : ApiKeyStatus
  expiresAt : Option Nat
  createdAt : Nat
  revokedAt : Option Nat
deriving DecidableEq

def viewOf (k : ApiKeyRec) : ApiKeyView :=
  { id := k.id, name := k.name, keyPrefix := k.keyPrefix,
    status := k.status, expiresAt := k.expiresAt,
    createdAt := k.createdAt, revokedAt := k.revokedAt }

/-- `.sort({ createdAt: -1 })` comparator: newest first. -/
def newestFirst (a b : ApiKeyRec) : Bool :=
  decide (b.createdAt ≤ a.createdAt)

/-- `list` (service lines 345-351): all of the caller's key documents, with
`keyHash` deselected, sorted by `createdAt` descending. -/
def listKeys (s : Store) (userId : String) : List ApiKeyView :=
  (((s.keys.filter fun k => decide (k.userId = userId)).mergeSort
      newestFirst).map viewOf)

/-!
Write-granular instrumentation.  Each service method performs its
precondition checks first and then a fixed sequence of persistence writes
(`create` / `save`), with no transaction and no rollback: if the j-th write
throws, the effects of writes 1..j-1 remain durably visible.  For each
method, `...WriteStates` returns `none` when a precondition rejects the call
before any write, and otherwise the list of stores visible after each
successive write of the successful path.
-/

/-- `generate`'s writes: 1. `apiKeyModel.create` (insert the new key);
2. `accessLogModel.create` (the GENERATED audit log). -/
def generateWriteStates (s : Store) (userId name rand salt : String)
    (now : Nat) (ipAddress : Option String) : Option (List Store) :=
  if MAX_ACTIVE_KEYS ≤ countActive s.keys userId then
    none
  else
    let apiKey := genRec s userId name rand salt now
    let sIns : Store := { s with keys := s.keys ++ [apiKey],
                                 nextId := s.nextId + 1 }
    some [sIns, logAccess sIns apiKey.id userId .GENERATED ipAddress []]

/-- `revoke`'s writes: 1. `apiKey.save()` (persist the REVOKED status);
2. `accessLogModel.create` (the REVOKED audit log). -/
def revokeWriteStates (s : Store) (userId keyId : String)
    (reason : Option String) (now : Nat) (ipAddress : Option String) :
    Option (List Store) :=
  match findKeyOrFail s keyId userId with
  | .error _ => none
  | .ok apiKey =>
    if apiKey.status = ApiKeyStatus.REVOKED then
      none
    else
      let apiKey' := { apiKey with status := ApiKeyStatus.REVOKED,
                                   revokedAt := some now }
      let sRev : Store := { s with keys := updateKey s.keys apiKey.id apiKey' }
      some [sRev, logAccess sRev apiKey.id userId .REVOKED ipAddress
              [("reason", reason)]]

/-- `rotate`'s writes: 1. insert the new key (inside the inner `generate`);
2. the GENERATED audit log (inside the inner `generate`);
3. `oldApiKey.save()` (persist the old key's revocation);
4. the ROTATED audit log. -/
def rotateWriteStates (s : Store) (userId keyId : String)
    (dtoName : Option String) (rand salt : String) (now : Nat)
    (ipAddress : Option String) : Option (List Store) :=
  match findKeyOrFail s keyId userId with
  | .error _ => none
  | .ok oldApiKey =>
    if oldApiKey.status = ApiKeyStatus.REVOKED then
      none
    else if MAX_ACTIVE_KEYS ≤ countActive s.keys userId then
      none
    else
      let newApiKey := genRec s userId (rotateNewName dtoName oldApiKey.name)
        rand salt now
      let sIns : Store := { s with keys := s.keys ++ [newApiKey],
                                   nextId := s.nextId + 1 }
      let sGen := logAccess sIns newApiKey.id userId .GENERATED ipAddress []
      let oldApiKey' := { oldApiKey with status := ApiKeyStatus.REVOKED,
                                         revokedAt := some now }
      let sRev : Store :=
        { sGen with keys := updateKey sGen.keys oldApiKey.id oldApiKey' }
      some [sIns, sGen, sRev,
            logAccess sRev oldApiKey.id userId .ROTATED ipAddress
              [("newKeyId", some newApiKey.id)]]

/-- The store durably visible when the write after the first `j` writes
throws (the failure-injection observable): the precondition-rejected call
and the failure before the first write both leave `s`. -/
def rotateVisibleAfter (j : Nat) (s : Store) (userId keyId : String)
    (dtoName : Option String) (rand salt : String) (now : Nat)
    (ipAddress : Option String) : Store :=
  match rotateWriteStates s userId keyId dtoName rand salt now ipAddress with
  | none => s
  | some l => ((l.take j).getLast?).getD s

/-- One request against the service, with the ambient inputs it consumes. -/
inductive Op
  | gen (userId name rand salt : String) (now : Nat) (ip : Option String)
  | rev (userId keyId : String) (reason : Option String) (now : Nat)
      (ip : Option String)
  | rot (userId keyId : String) (dtoName : Option String)
      (rand salt : String) (now : Nat) (ip : Option String)

/-- The store after a request completes (a thrown request leaves the store
as its write-state instrumentation says; for precondition throws that is
the unchanged store). -/
def stepStore (s : Store) : Op → Store
  | .gen userId name rand salt now ip =>
    match generate s userId name rand salt now ip with
    | .ok (s', _, _) => s'
    | .error _ => s
  | .rev userId keyId reason now ip =>
    match revoke s userId keyId reason now ip with
    | .ok (s', _) => s'
    | .error _ => s
  | .rot userId keyId dtoName rand salt now ip =>
    match rotate s userId keyId dtoName rand salt now ip with
    | .ok (s', _, _, _) => s'
    | .error _ => s

/-- Every store visible while a request executes: the stores after each
persistence write (for a precondition-rejected request, just the unchanged
store). -/
def opStates (s : Store) : Op → List Store
  | .gen userId name rand salt now ip =>
    match generateWriteStates s userId name rand salt now ip with
    | none => [s]
    | some l => l
  | .rev userId keyId reason now ip =>
    match revokeWriteStates s userId keyId reason now ip with
    | none => [s]
    | some l => l
  | .rot userId keyId dtoName rand salt now ip =>
    match rotateWriteStates s userId keyId dtoName rand salt now ip with
    | none => [s]
    | some l => l

/-- Every store visible along a sequence of requests, including every
mid-request store. -/
def traceStates (s : Store) : List Op → List Store
  | [] => [s]
  | op :: ops => s :: opStates s op ++ traceStates (stepStore s op) ops

/-- Store well-formedness, maintained by the service: document ids come
injectively from the fresh-id counter (MongoDB ObjectId uniqueness), are
pairwise distinct, and every owner is within the active-key quota. -/
structure StoreWF (s : Store) : Prop where
  ids_lt : ∀ k ∈ s.keys, ∃ m, m < s.nextId ∧ k.id = mkId m
  ids_nodup : (s.keys.map fun k => k.id).Nodup
  quota : ∀ u, countActive s.keys u ≤ MAX_ACTIVE_KEYS

theorem countActive_append (ks l : List ApiKeyRec) (u : String) :
    countActive (ks ++ l) u = countActive ks u + countActive l u :=
  List.countP_append _ _ _

theorem countActive_singleton (k : ApiKeyRec) (u : String) :
    countActive [k] u = if isActiveFor u k then 1 else 0 := by
  simp [countActive, List.countP_cons]

theorem isActiveFor_genRec (s : Store) (userId name rand salt : String)
    (now : Nat) (u : String) :
    isActiveFor u (genRec s userId name rand salt now) = decide (userId = u) := by
  simp [isActiveFor, genRec]

theorem updateKey_of_id_not_mem (ks : List ApiKeyRec) (i : String)
    (k' : ApiKeyRec) (h : ∀ k ∈ ks, k.id ≠ i) : updateKey ks i k' = ks := by
  induction ks with
  | nil => rfl
  | cons a t ih =>
    simp only [updateKey, List.map_cons]
    rw [if_neg (h a (by simp)), show t.map (fun k => if k.id = i then k' else k)
        = updateKey t i k' from rfl, ih fun k hk => h k (by simp [hk])]

theorem updateKey_append (ks l : List ApiKeyRec) (i : String) (k' : ApiKeyRec) :
    updateKey (ks ++ l) i k' = updateKey ks i k' ++ updateKey l i k' := by
  simp [updateKey]

theorem updateKey_map_id (ks : List ApiKeyRec) (i : String) (k' : ApiKeyRec)
    (h : k'.id = i) :
    (updateKey ks i k').map (fun k => k.id) = ks.map fun k => k.id := by
  induction ks with
  | nil => rfl
  | cons a t ih =>
    simp only [updateKey, List.map_cons] at ih ⊢
    by_cases ha : a.id = i
    · rw [if_pos ha, ih]
      simp [h, ha]
    · rw [if_neg ha, ih]

theorem countP_updateKey (p : ApiKeyRec → Bool) (ks : List ApiKeyRec)
    (i : String) (k' old : ApiKeyRec)
    (hnd : (ks.map fun k => k.id).Nodup) (hmem : old ∈ ks) (hid : old.id = i) :
    (updateKey ks i k').countP p + (if p old then 1 else 0)
      = ks.countP p + (if p k' then 1 else 0) := by
  induction ks with
  | nil => simp at hmem
  | cons a t ih =>
    simp only [List.map_cons, List.nodup_cons] at hnd
    by_cases ha : a.id = i
    · have hto : ∀ k ∈ t, k.id ≠ i := by
        intro k hk hki
        exact hnd.1 (by rw [ha, ← hki]; exact List.mem_map_of_mem _ hk)
      have hoa : old = a := by
        rcases List.mem_cons.mp hmem with h | h
        · exact h
        · exact absurd hid (hto old h)
      simp only [updateKey, List.map_cons, if_pos ha]
      rw [show t.map (fun k => if k.id = i then k' else k) = updateKey t i k'
          from rfl, updateKey_of_id_not_mem t i k' hto, hoa,
        List.countP_cons, List.countP_cons]
      omega
    · have hot : old ∈ t := by
        rcases List.mem_cons.mp hmem with h | h
        · exact absurd (h ▸ hid) ha
        · exact h
      simp only [updateKey, List.map_cons, if_neg ha]
      rw [show t.map (fun k => if k.id = i then k' else k) = updateKey t i k'
          from rfl, List.countP_cons, List.countP_cons]
      have := ih hnd.2 hot
      omega

theorem mem_updateKey (ks : List ApiKeyRec) (i : String) (k' k : ApiKeyRec)
    (h : k ∈ updateKey ks i k') : k = k' ∨ k ∈ ks := by
  rcases List.mem_map.mp h with ⟨a, ha, hak⟩
  by_cases hai : a.id = i
  · left; rw [← hak, if_pos hai]
  · right; rwa [← hak, if_neg hai]

theorem findKeyOrFail_ok {s : Store} {keyId userId : String} {k : ApiKeyRec}
    (h : findKeyOrFail s keyId userId = .ok k) :
    isValidObjectId keyId = true ∧ k ∈ s.keys ∧ k.id = keyId
      ∧ k.userId = userId
      ∧ s.keys.find? (fun kk => decide (kk.id = keyId)) = some k := by
  unfold findKeyOrFail at h
  by_cases hv : isValidObjectId keyId
  · rw [hv] at h
    simp only [Bool.not_true, Bool.false_eq_true, if_false] at h
    cases hf : s.keys.find? fun kk => decide (kk.id = keyId) with
    | none => rw [hf] at h; exact absurd h (by simp)
    | some a =>
      rw [hf] at h
      dsimp only at h
      by_cases hu : a.userId ≠ userId
      · rw [if_pos hu] at h; exact absurd h (by simp)
      · rw [if_neg hu] at h
        have hak : a = k := by
          simpa using h
        refine ⟨hv, hak ▸ List.mem_of_find?_eq_some hf, ?_, ?_,
          by rw [← hak]⟩
        · have := List.find?_some hf
          simp only [decide_eq_true_eq] at this
          rw [← hak]; exact this
        · rw [← hak]; exact not_ne_iff.mp hu
  · rw [Bool.not_eq_true] at hv
    rw [hv] at h
    exact absurd h (by simp)

theorem findKeyOrFail_error_cases {s : Store} {keyId userId : String}
    {e : ApiError} (h : findKeyOrFail s keyId userId = .error e) :
    e = .InvalidIdentity ∨ e = .NotFound ∨ e = .AccessDenied := by
  unfold findKeyOrFail at h
  by_cases hv : isValidObjectId keyId
  · rw [hv] at h
    simp only [Bool.not_true, Bool.false_eq_true, if_false] at h
    cases hf : s.keys.find? fun kk => decide (kk.id = keyId) with
    | none => rw [hf] at h; right; left; simpa using h.symm
    | some a =>
      rw [hf] at h
      dsimp only at h
      by_cases hu : a.userId ≠ userId
      · rw [if_pos hu] at h; right; right; simpa using h.symm
      · rw [if_neg hu] at h; exact absurd h (by simp)
  · rw [Bool.not_eq_true] at hv
    rw [hv] at h
    left
    simpa using h.symm

theorem generate_quota {s : Store} {userId name rand salt : String}
    {now : Nat} {ip : Option String}
    (h : MAX_ACTIVE_KEYS ≤ countActive s.keys userId) :
    generate s userId name rand salt now ip = .error .QuotaExceeded := by
  simp [generate, h]

theorem generate_ok_eq {s : Store} {userId name rand salt : String}
    {now : Nat} {ip : Option String}
    (h : countActive s.keys userId < MAX_ACTIVE_KEYS) :
    generate s userId name rand salt now ip =
      .ok ({ keys := s.keys ++ [genRec s userId name rand salt now],
             logs := s.logs ++
               [{ apiKeyId := (genRec s userId name rand salt now).id,
                  userId := userId, action := .GENERATED,
                  ipAddress := normIp ip, metadata := [] }],
             nextId := s.nextId + 1 },
           genRec s userId name rand salt now, "ppm_" ++ rand) := by
  simp [generate, Nat.not_le.mpr h, logAccess]

theorem generate_error {s : Store} {userId name rand salt : String}
    {now : Nat} {ip : Option String} {e : ApiError}
    (h : generate s userId name rand salt now ip = .error e) :
    e = .QuotaExceeded ∧ MAX_ACTIVE_KEYS ≤ countActive s.keys userId := by
  by_cases hq : MAX_ACTIVE_KEYS ≤ countActive s.keys userId
  · rw [generate_quota hq] at h
    exact ⟨by simpa using h.symm, hq⟩
  · rw [generate_ok_eq (Nat.lt_of_not_le hq)] at h
    exact absurd h (by simp)

theorem countActive_append_genRec (s : Store) (userId name rand salt : String)
    (now : Nat) (u : String) :
    countActive (s.keys ++ [genRec s userId name rand salt now]) u
      = countActive s.keys u + if userId = u then 1 else 0 := by
  rw [countActive_append, countActive_singleton, isActiveFor_genRec]
  simp

theorem storeWF_append_genRec {s : Store} {userId : String}
    (W : StoreWF s) (name rand salt : String) (now : Nat)
    (h : countActive s.keys userId < MAX_ACTIVE_KEYS)
    (logs' : List AccessLogRec) :
    StoreWF { keys := s.keys ++ [genRec s userId name rand salt now],
              logs := logs', nextId := s.nextId + 1 } := by
  constructor
  · intro k hk
    dsimp only at hk ⊢
    rcases List.mem_append.mp hk with hk | hk
    · rcases W.ids_lt k hk with ⟨m, hm, hid⟩
      exact ⟨m, by omega, hid⟩
    · refine ⟨s.nextId, by omega, ?_⟩
      rw [List.mem_singleton.mp hk]
      rfl
  · dsimp only
    rw [List.map_append, List.nodup_append]
    refine ⟨W.ids_nodup, by simp, ?_⟩
    intro a ha ha'
    rcases List.mem_map.mp ha with ⟨k, hk, hka⟩
    rcases W.ids_lt k hk with ⟨m, hm, hid⟩
    have ha2 : a = mkId s.nextId := by simpa [genRec] using ha'
    have hmm : mkId m = mkId s.nextId := by rw [← hid, hka, ha2]
    have := mkId_injective hmm
    omega
  · intro u
    dsimp only
    rw [countActive_append_genRec]
    by_cases hu : userId = u
    · subst hu
      have := W.quota userId
      rw [if_pos rfl]
      omega
    · rw [if_neg hu]
      simpa using W.quota u

theorem revoke_ok {s : Store} {userId keyId : String} {reason : Option String}
    {now : Nat} {ip : Option String} {s' : Store} {k' : ApiKeyRec}
    (h : revoke s userId keyId reason now ip = .ok (s', k')) :
    ∃ k, findKeyOrFail s keyId userId = .ok k
      ∧ k.status = ApiKeyStatus.ACTIVE
      ∧ k' = { k with status := ApiKeyStatus.REVOKED, revokedAt := some now }
      ∧ s' = { s with keys := updateKey s.keys k.id k',
                      logs := s.logs ++
                        [{ apiKeyId := k.id, userId := userId,
                           action := .REVOKED, ipAddress := normIp ip,
                           metadata := [("reason", reason)] }] } := by
  unfold revoke at h
  cases hf : findKeyOrFail s keyId userId with
  | error e => rw [hf] at h; exact absurd h (by simp)
  | ok k =>
    rw [hf] at h
    dsimp only at h
    by_cases hst : k.status = ApiKeyStatus.REVOKED
    · rw [if_pos hst] at h; exact absurd h (by simp)
    · rw [if_neg hst] at h
      refine ⟨k, rfl, ?_, ?_⟩
      · cases hs : k.status with
        | ACTIVE => rfl
        | REVOKED => exact absurd hs hst
      · simp only [Except.ok.injEq, Prod.mk.injEq, logAccess] at h
        exact ⟨h.2.symm, by rw [← h.1, ← h.2]⟩

theorem rotate_ok {s : Store} {userId keyId : String} {dtoName : Option String}
    {rand salt : String} {now : Nat} {ip : Option String}
    {s' : Store} {nk : ApiKeyRec} {raw : String} {old' : ApiKeyRec}
    (h : rotate s userId keyId dtoName rand salt now ip
      = .ok (s', nk, raw, old')) :
    ∃ old, findKeyOrFail s keyId userId = .ok old
      ∧ old.status = ApiKeyStatus.ACTIVE
      ∧ countActive s.keys userId < MAX_ACTIVE_KEYS
      ∧ nk = genRec s userId (rotateNewName dtoName old.name) rand salt now
      ∧ raw = "ppm_" ++ rand
      ∧ old' = { old with status := ApiKeyStatus.REVOKED,
                          revokedAt := some now }
      ∧ s' = { keys := updateKey (s.keys ++ [nk]) old.id old',
               logs := (s.logs ++
                 [{ apiKeyId := nk.id, userId := userId,
                    action := .GENERATED, ipAddress := normIp ip,
                    metadata := [] }]) ++
                 [{ apiKeyId := old.id, userId := userId,
                    action := .ROTATED, ipAddress := normIp ip,
                    metadata := [("newKeyId", some nk.id)] }],
               nextId := s.nextId + 1 } := by
  unfold rotate at h
  cases hf : findKeyOrFail s keyId userId with
  | error e => rw [hf] at h; exact absurd h (by simp)
  | ok old =>
    rw [hf] at h
    dsimp only at h
    by_cases hst : old.status = ApiKeyStatus.REVOKED
    · rw [if_pos hst] at h; exact absurd h (by simp)
    · rw [if_neg hst] at h
      by_cases hq : MAX_ACTIVE_KEYS ≤ countActive s.keys userId
      · rw [generate_quota hq] at h; exact absurd h (by simp)
      · have hlt := Nat.lt_of_not_le hq
        rw [generate_ok_eq hlt] at h
        dsimp only at h
        simp only [logAccess, Except.ok.injEq, Prod.mk.injEq] at h
        obtain ⟨hs', hnk, hraw, hold'⟩ := h
        refine ⟨old, rfl, ?_, hlt, hnk.symm, hraw.symm, hold'.symm, ?_⟩
        · cases hs : old.status with
          | ACTIVE => rfl
          | REVOKED => exact absurd hs hst
        · rw [← hs', ← hnk, ← hold']

theorem rotate_error_cases {s : Store} {userId keyId : String}
    {dtoName : Option String} {rand salt : String} {now : Nat}
    {ip : Option String} {e : ApiError}
    (h : rotate s userId keyId dtoName rand salt now ip = .error e) :
    rotateWriteStates s userId keyId dtoName rand salt now ip = none
      ∧ (e = .InvalidIdentity ∨ e = .NotFound ∨ e = .AccessDenied
          ∨ e = .CannotRotateRevoked ∨ e = .QuotaExceeded) := by
  unfold rotate at h
  unfold rotateWriteStates
  cases hf : findKeyOrFail s keyId userId with
  | error e' =>
    rw [hf] at h
    refine ⟨rfl, ?_⟩
    have he : e' = e := by simpa using h
    rcases findKeyOrFail_error_cases hf with h1 | h1 | h1 <;>
      simp [← he, h1]
  | ok old =>
    rw [hf] at h
    dsimp only at h ⊢
    by_cases hst : old.status = ApiKeyStatus.REVOKED
    · rw [if_pos hst] at h ⊢
      have he : ApiError.CannotRotateRevoked = e := by simpa using h
      simp [← he]
    · rw [if_neg hst] at h ⊢
      by_cases hq : MAX_ACTIVE_KEYS ≤ countActive s.keys userId
      · rw [generate_quota hq] at h
        rw [if_pos hq]
        have he : ApiError.QuotaExceeded = e := by simpa using h
        simp [← he]
      · rw [generate_ok_eq (Nat.lt_of_not_le hq)] at h
        exact absurd h (by simp)

theorem rotateWriteStates_some {s : Store} {userId keyId : String}
    {dtoName : Option String} {rand salt : String} {now : Nat}
    {ip : Option String} {l : List Store}
    (h : rotateWriteStates s userId keyId dtoName rand salt now ip = some l) :
    ∃ old, findKeyOrFail s keyId userId = .ok old
      ∧ old.status = ApiKeyStatus.ACTIVE
      ∧ countActive s.keys userId < MAX_ACTIVE_KEYS
      ∧ ∃ nk oldRev, ∃ genEv rotEv : AccessLogRec,
          nk = genRec s userId (rotateNewName dtoName old.name) rand salt now
        ∧ oldRev = { old with status := ApiKeyStatus.REVOKED,
                              revokedAt := some now }
        ∧ genEv = { apiKeyId := nk.id, userId := userId,
                    action := .GENERATED, ipAddress := normIp ip,
                    metadata := [] }
        ∧ rotEv = { apiKeyId := old.id, userId := userId,
                    action := .ROTATED, ipAddress := normIp ip,
                    metadata := [("newKeyId", some nk.id)] }
        ∧ l = [ { keys := s.keys ++ [nk], logs := s.logs,
                  nextId := s.nextId + 1 },
                { keys := s.keys ++ [nk], logs := s.logs ++ [genEv],
                  nextId := s.nextId + 1 },
                { keys := updateKey (s.keys ++ [nk]) old.id oldRev,
                  logs := s.logs ++ [genEv], nextId := s.nextId + 1 },
                { keys := updateKey (s.keys ++ [nk]) old.id oldRev,
                  logs := (s.logs ++ [genEv]) ++ [rotEv],
                  nextId := s.nextId + 1 } ]
        ∧ rotate s userId keyId dtoName rand salt now ip
            = .ok ({ keys := updateKey (s.keys ++ [nk]) old.id oldRev,
                     logs := (s.logs ++ [genEv]) ++ [rotEv],
                     nextId := s.nextId + 1 },
                   nk, "ppm_" ++ rand, oldRev) := by
  unfold rotateWriteStates at h
  cases hf : findKeyOrFail s keyId userId with
  | error e => rw [hf] at h; exact absurd h (by simp)
  | ok old =>
    rw [hf] at h
    dsimp only at h
    by_cases hst : old.status = ApiKeyStatus.REVOKED
    · rw [if_pos hst] at h; exact absurd h (by simp)
    · rw [if_neg hst] at h
      by_cases hq : MAX_ACTIVE_KEYS ≤ countActive s.keys userId
      · rw [if_pos hq] at h; exact absurd h (by simp)
      · rw [if_neg hq] at h
        have hlt := Nat.lt_of_not_le hq
        simp only [logAccess, Option.some.injEq] at h
        refine ⟨old, rfl, ?_, hlt, _, _, _, _, rfl, rfl, rfl, rfl, h.symm, ?_⟩
        · cases hs : old.status with
          | ACTIVE => rfl
          | REVOKED => exact absurd hs hst
        · unfold rotate
          rw [hf]
          dsimp only
          rw [if_neg hst, generate_ok_eq hlt]
          dsimp only
          simp only [logAccess]

theorem generateWriteStates_none_iff {s : Store} {userId name rand salt : String}
    {now : Nat} {ip : Option String} :
    generateWriteStates s userId name rand salt now ip = none
      ↔ MAX_ACTIVE_KEYS ≤ countActive s.keys userId := by
  by_cases hq : MAX_ACTIVE_KEYS ≤ countActive s.keys userId <;>
    simp [generateWriteStates, hq]

theorem generateWriteStates_some_eq {s : Store} {userId : String}
    (name rand salt : String) (now : Nat) (ip : Option String)
    (h : countActive s.keys userId < MAX_ACTIVE_KEYS) :
    generateWriteStates s userId name rand salt now ip =
      some [ { keys := s.keys ++ [genRec s userId name rand salt now],
               logs := s.logs, nextId := s.nextId + 1 },
             { keys := s.keys ++ [genRec s userId name rand salt now],
               logs := s.logs ++
                 [{ apiKeyId := (genRec s userId name rand salt now).id,
                    userId := userId, action := .GENERATED,
                    ipAddress := normIp ip, metadata := [] }],
               nextId := s.nextId + 1 } ] := by
  simp [generateWriteStates, Nat.not_le.mpr h, logAccess]

theorem revoke_error_cases {s : Store} {userId keyId : String}
    {reason : Option String} {now : Nat} {ip : Option String} {e : ApiError}
    (h : revoke s userId keyId reason now ip = .error e) :
    revokeWriteStates s userId keyId reason now ip = none
      ∧ (e = .InvalidIdentity ∨ e = .NotFound ∨ e = .AccessDenied
          ∨ e = .AlreadyRevoked) := by
  unfold revoke at h
  unfold revokeWriteStates
  cases hf : findKeyOrFail s keyId userId with
  | error e' =>
    rw [hf] at h
    have he : e' = e := by simpa using h
    rcases findKeyOrFail_error_cases hf with h1 | h1 | h1 <;>
      simp [← he, h1]
  | ok k =>
    rw [hf] at h
    dsimp only at h ⊢
    by_cases hst : k.status = ApiKeyStatus.REVOKED
    · rw [if_pos hst] at h ⊢
      have he : ApiError.AlreadyRevoked = e := by simpa using h
      simp [← he]
    · rw [if_neg hst] at h
      exact absurd h (by simp)

theorem revokeWriteStates_some {s : Store} {userId keyId : String}
    {reason : Option String} {now : Nat} {ip : Option String} {l : List Store}
    (h : revokeWriteStates s userId keyId reason now ip = some l) :
    ∃ k, findKeyOrFail s keyId userId = .ok k
      ∧ k.status = ApiKeyStatus.ACTIVE
      ∧ ∃ k' : ApiKeyRec, ∃ ev : AccessLogRec,
          k' = { k with status := ApiKeyStatus.REVOKED,
                        revokedAt := some now }
        ∧ ev = { apiKeyId := k.id, userId := userId, action := .REVOKED,
                 ipAddress := normIp ip, metadata := [("reason", reason)] }
        ∧ l = [ { s with keys := updateKey s.keys k.id k' },
                { keys := updateKey s.keys k.id k',
                  logs := s.logs ++ [ev], nextId := s.nextId } ]
        ∧ revoke s userId keyId reason now ip
            = .ok ({ keys := updateKey s.keys k.id k',
                     logs := s.logs ++ [ev], nextId := s.nextId }, k') := by
  unfold revokeWriteStates at h
  cases hf : findKeyOrFail s keyId userId with
  | error e => rw [hf] at h; exact absurd h (by simp)
  | ok k =>
    rw [hf] at h
    dsimp only at h
    by_cases hst : k.status = ApiKeyStatus.REVOKED
    · rw [if_pos hst] at h; exact absurd h (by simp)
    · rw [if_neg hst] at h
      simp only [logAccess, Option.some.injEq] at h
      refine ⟨k, rfl, ?_, _, _, rfl, rfl, ?_, ?_⟩
      · cases hs : k.status with
        | ACTIVE => rfl
        | REVOKED => exact absurd hs hst
      · rw [← h]
      · unfold revoke
        rw [hf]
        dsimp only
        rw [if_neg hst]
        simp only [logAccess]

theorem countActive_rotate_upd {ks : List ApiKeyRec} {userId : String}
    {old nk oldRev : ApiKeyRec}
    (hnodup : ((ks ++ [nk]).map fun k => k.id).Nodup)
    (hmem : old ∈ ks) (hactive : old.status = ApiKeyStatus.ACTIVE)
    (howner : old.userId = userId)
    (hnkuser : nk.userId = userId) (hnkact : nk.status = ApiKeyStatus.ACTIVE)
    (hrevst : oldRev.status = ApiKeyStatus.REVOKED) (u : String) :
    countActive (updateKey (ks ++ [nk]) old.id oldRev) u = countActive ks u := by
  have hupd := countP_updateKey (isActiveFor u) (ks ++ [nk]) old.id oldRev old
    hnodup (List.mem_append_left _ hmem) rfl
  have hB : isActiveFor u oldRev = false := by
    simp [isActiveFor, hrevst]
  have happ : List.countP (isActiveFor u) (ks ++ [nk])
      = List.countP (isActiveFor u) ks
        + if isActiveFor u nk then 1 else 0 := by
    rw [List.countP_append]
    simp [List.countP_cons]
  rw [hB, happ] at hupd
  simp only [countActive]
  by_cases hu : userId = u
  · have hA : isActiveFor u old = true := by
      simp [isActiveFor, howner, hactive, hu]
    have hN : isActiveFor u nk = true := by
      simp [isActiveFor, hnkuser, hnkact, hu]
    rw [hA, hN] at hupd
    simp at hupd
    omega
  · have hA : isActiveFor u old = false := by
      simp only [isActiveFor, decide_eq_false_iff_not, not_and]
      intro h1
      exact absurd (howner.symm.trans h1) hu
    have hN : isActiveFor u nk = false := by
      simp only [isActiveFor, decide_eq_false_iff_not, not_and]
      intro h1
      exact absurd (hnkuser.symm.trans h1) hu
    rw [hA, hN] at hupd
    simp at hupd
    omega

theorem storeWF_updateKey {s0 : Store} (W : StoreWF s0) {i : String}
    {k k' : ApiKeyRec} (hmem : k ∈ s0.keys) (hki : k.id = i) (hk'i : k'.id = i)
    (hquota : ∀ u, countActive (updateKey s0.keys i k') u ≤ MAX_ACTIVE_KEYS)
    (logs' : List AccessLogRec) :
    StoreWF { keys := updateKey s0.keys i k', logs := logs',
              nextId := s0.nextId } := by
  constructor
  · intro a ha
    dsimp only at ha ⊢
    rcases mem_updateKey _ _ _ _ ha with h | h
    · rcases W.ids_lt k hmem with ⟨m, hm, hid⟩
      exact ⟨m, hm, by rw [h, hk'i, ← hki, hid]⟩
    · exact W.ids_lt a h
  · dsimp only
    rw [updateKey_map_id _ _ _ hk'i]
    exact W.ids_nodup
  · intro u
    exact hquota u

theorem status_active_of_not_revoked {k : ApiKeyRec}
    (hst : k.status ≠ ApiKeyStatus.REVOKED) :
    k.status = ApiKeyStatus.ACTIVE := by
  cases hs : k.status with
  | ACTIVE => rfl
  | REVOKED => exact absurd hs hst

theorem revokeWriteStates_isSome_of_ok {s : Store} {userId keyId : String}
    {reason : Option String} {now : Nat} {ip : Option String}
    {r : Store × ApiKeyRec}
    (h : revoke s userId keyId reason now ip = .ok r) :
    (revokeWriteStates s userId keyId reason now ip).isSome := by
  obtain ⟨s1, k1⟩ := r
  obtain ⟨k, hf, hact, -, -⟩ := revoke_ok h
  unfold revokeWriteStates
  rw [hf]
  dsimp only
  rw [if_neg (by rw [hact]; simp)]
  simp

theorem rotateWriteStates_isSome_of_ok {s : Store} {userId keyId : String}
    {dtoName : Option String} {rand salt : String} {now : Nat}
    {ip : Option String} {r : Store × ApiKeyRec × String × ApiKeyRec}
    (h : rotate s userId keyId dtoName rand salt now ip = .ok r) :
    (rotateWriteStates s userId keyId dtoName rand salt now ip).isSome := by
  obtain ⟨s1, nk1, raw1, old1⟩ := r
  obtain ⟨old, hf, hact, hlt, -⟩ := rotate_ok h
  unfold rotateWriteStates
  rw [hf]
  dsimp only
  rw [if_neg (by rw [hact]; simp), if_neg (Nat.not_le.mpr hlt)]
  simp

theorem quota_append_genRec {s : Store} {userId : String} (W : StoreWF s)
    (h : countActive s.keys userId < MAX_ACTIVE_KEYS)
    (name rand salt : String) (now : Nat) (u : String) :
    countActive (s.keys ++ [genRec s userId name rand salt now]) u
      ≤ MAX_ACTIVE_KEYS := by
  rw [countActive_append_genRec]
  by_cases hu : userId = u
  · subst hu
    have := W.quota userId
    rw [if_pos rfl]
    omega
  · rw [if_neg hu]
    simpa using W.quota u

theorem opStates_safe {s : Store} (W : StoreWF s) (op : Op) :
    (∀ t ∈ opStates s op, ∀ u, countActive t.keys u ≤ MAX_ACTIVE_KEYS)
      ∧ StoreWF (stepStore s op) := by
  cases op with
  | gen userId name rand salt now ip =>
    by_cases hq : MAX_ACTIVE_KEYS ≤ countActive s.keys userId
    · have hw : generateWriteStates s userId name rand salt now ip = none :=
        generateWriteStates_none_iff.mpr hq
      refine ⟨?_, ?_⟩
      · intro t ht u
        simp only [opStates, hw] at ht
        rw [List.eq_of_mem_singleton ht]
        exact W.quota u
      · simp only [stepStore, generate_quota hq]
        exact W
    · have hlt := Nat.lt_of_not_le hq
      have hw := generateWriteStates_some_eq name rand salt now ip hlt
      refine ⟨?_, ?_⟩
      · intro t ht u
        simp only [opStates, hw] at ht
        simp only [List.mem_cons, List.mem_singleton,
          List.not_mem_nil, or_false] at ht
        rcases ht with rfl | rfl
        · exact quota_append_genRec W hlt name rand salt now u
        · exact quota_append_genRec W hlt name rand salt now u
      · simp only [stepStore, generate_ok_eq hlt]
        exact storeWF_append_genRec W name rand salt now hlt _
  | rev userId keyId reason now ip =>
    cases hw : revokeWriteStates s userId keyId reason now ip with
    | none =>
      refine ⟨?_, ?_⟩
      · intro t ht u
        simp only [opStates, hw] at ht
        rw [List.eq_of_mem_singleton ht]
        exact W.quota u
      · cases hrv : revoke s userId keyId reason now ip with
        | error e => simpa only [stepStore, hrv] using W
        | ok r =>
          have hS := revokeWriteStates_isSome_of_ok hrv
          rw [hw] at hS
          simp at hS
    | some l =>
      obtain ⟨k, hf, hact, k', ev, hk', hev, hl, hrv⟩ :=
        revokeWriteStates_some hw
      obtain ⟨hv, hmem, hkid, howner, hfind⟩ := findKeyOrFail_ok hf
      have hquota : ∀ u,
          countActive (updateKey s.keys k.id k') u ≤ MAX_ACTIVE_KEYS := by
        intro u
        have hupd := countP_updateKey (isActiveFor u) s.keys k.id k' k
          W.ids_nodup hmem rfl
        have hB : isActiveFor u k' = false := by
          simp [isActiveFor, hk']
        rw [hB] at hupd
        have hq := W.quota u
        simp only [countActive] at hq ⊢
        simp at hupd
        omega
      refine ⟨?_, ?_⟩
      · intro t ht u
        simp only [opStates, hw] at ht
        rw [hl] at ht
        simp only [List.mem_cons, List.mem_singleton,
          List.not_mem_nil, or_false] at ht
        rcases ht with rfl | rfl
        · exact hquota u
        · exact hquota u
      · have hstep : stepStore s (Op.rev userId keyId reason now ip)
            = { keys := updateKey s.keys k.id k', logs := s.logs ++ [ev],
                nextId := s.nextId } := by
          simp only [stepStore, hrv]
        rw [hstep]
        exact storeWF_updateKey W hmem rfl (by rw [hk']) hquota _
  | rot userId keyId dtoName rand salt now ip =>
    cases hw : rotateWriteStates s userId keyId dtoName rand salt now ip with
    | none =>
      refine ⟨?_, ?_⟩
      · intro t ht u
        simp only [opStates, hw] at ht
        rw [List.eq_of_mem_singleton ht]
        exact W.quota u
      · cases hrt : rotate s userId keyId dtoName rand salt now ip with
        | error e => simpa only [stepStore, hrt] using W
        | ok r =>
          have hS := rotateWriteStates_isSome_of_ok hrt
          rw [hw] at hS
          simp at hS
    | some l =>
      obtain ⟨old, hf, hact, hlt, nk, oldRev, genEv, rotEv, hnk, hrev,
        hgenEv, hrotEv, hl, hrot⟩ := rotateWriteStates_some hw
      obtain ⟨hv, hmem, hkid, howner, hfind⟩ := findKeyOrFail_ok hf
      have hnodup : ((s.keys ++ [nk]).map fun k => k.id).Nodup := by
        have W2 := storeWF_append_genRec W
          (rotateNewName dtoName old.name) rand salt now hlt s.logs
        have h2 := W2.ids_nodup
        dsimp only at h2
        rwa [← hnk] at h2
      have hcnt : ∀ u, countActive (updateKey (s.keys ++ [nk]) old.id oldRev) u
          = countActive s.keys u := by
        intro u
        refine countActive_rotate_upd hnodup hmem hact howner ?_ ?_ ?_ u
        · rw [hnk]; rfl
        · rw [hnk]; rfl
        · rw [hrev]
      have happq : ∀ u, countActive (s.keys ++ [nk]) u ≤ MAX_ACTIVE_KEYS := by
        intro u
        rw [hnk]
        exact quota_append_genRec W hlt _ rand salt now u
      refine ⟨?_, ?_⟩
      · intro t ht u
        simp only [opStates, hw] at ht
        rw [hl] at ht
        simp only [List.mem_cons, List.mem_singleton,
          List.not_mem_nil, or_false] at ht
        rcases ht with rfl | rfl | rfl | rfl
        · exact happq u
        · exact happq u
        · dsimp only
          rw [hcnt u]
          exact W.quota u
        · dsimp only
          rw [hcnt u]
          exact W.quota u
      · have hstep : stepStore s (Op.rot userId keyId dtoName rand salt now ip)
            = { keys := updateKey (s.keys ++ [nk]) old.id oldRev,
                logs := (s.logs ++ [genEv]) ++ [rotEv],
                nextId := s.nextId + 1 } := by
          simp only [stepStore, hrot]
        rw [hstep]
        have W0 : StoreWF { keys := s.keys ++ [nk],
                            logs := s.logs ++ [genEv],
                            nextId := s.nextId + 1 } := by
          have h0 := storeWF_append_genRec W
            (rotateNewName dtoName old.name) rand salt now hlt
            (s.logs ++ [genEv])
          rwa [← hnk] at h0
        have hQ : ∀ u, countActive (updateKey (s.keys ++ [nk]) old.id oldRev) u
            ≤ MAX_ACTIVE_KEYS := fun u => by rw [hcnt u]; exact W.quota u
        exact storeWF_updateKey W0 (List.mem_append_left _ hmem) rfl
          (by rw [hrev]) hQ ((s.logs ++ [genEv]) ++ [rotEv])

theorem rotate_no_drop {s : Store} (W : StoreWF s) (userId keyId : String)
    (dtoName : Option String) (rand salt : String) (now : Nat)
    (ip : Option String) :
    ∀ t ∈ opStates s (Op.rot userId keyId dtoName rand salt now ip), ∀ u,
      countActive s.keys u ≤ countActive t.keys u := by
  cases hw : rotateWriteStates s userId keyId dtoName rand salt now ip with
  | none =>
    intro t ht u
    simp only [opStates, hw] at ht
    rw [List.eq_of_mem_singleton ht]
  | some l =>
    obtain ⟨old, hf, hact, hlt, nk, oldRev, genEv, rotEv, hnk, hrev,
      hgenEv, hrotEv, hl, hrot⟩ := rotateWriteStates_some hw
    obtain ⟨hv, hmem, hkid, howner, hfind⟩ := findKeyOrFail_ok hf
    have hnodup : ((s.keys ++ [nk]).map fun k => k.id).Nodup := by
      have W2 := storeWF_append_genRec W
        (rotateNewName dtoName old.name) rand salt now hlt s.logs
      have h2 := W2.ids_nodup
      dsimp only at h2
      rwa [← hnk] at h2
    have hcnt : ∀ u, countActive (updateKey (s.keys ++ [nk]) old.id oldRev) u
        = countActive s.keys u := by
      intro u
      refine countActive_rotate_upd hnodup hmem hact howner ?_ ?_ ?_ u
      · rw [hnk]; rfl
      · rw [hnk]; rfl
      · rw [hrev]
    have happ : ∀ u, countActive s.keys u ≤ countActive (s.keys ++ [nk]) u := by
      intro u
      rw [countActive_append]
      omega
    intro t ht u
    simp only [opStates, hw] at ht
    rw [hl] at ht
    simp only [List.mem_cons, List.mem_singleton,
      List.not_mem_nil, or_false] at ht
    rcases ht with rfl | rfl | rfl | rfl
    · exact happ u
    · exact happ u
    · dsimp only
      rw [hcnt u]
    · dsimp only
      rw [hcnt u]

theorem traceStates_quota : ∀ (ops : List Op) (s : Store), StoreWF s →
    ∀ t ∈ traceStates s ops, ∀ u,
      countActive t.keys u ≤ MAX_ACTIVE_KEYS := by
  intro ops
  induction ops with
  | nil =>
    intro s W t ht u
    simp only [traceStates, List.mem_singleton] at ht
    rw [ht]
    exact W.quota u
  | cons op ops ih =>
    intro s W t ht u
    simp only [traceStates, List.mem_cons, List.mem_append] at ht
    rcases ht with (rfl | ht) | ht
    · exact W.quota u
    · exact (opStates_safe W op).1 t ht u
    · exact ih (stepStore s op) (opStates_safe W op).2 t ht u

theorem storeWF_empty : StoreWF emptyStore := by
  constructor
  · intro k hk
    simp [emptyStore] at hk
  · simp [emptyStore]
  · intro u
    simp [emptyStore, countActive]

theorem find?_updateKey (ks : List ApiKeyRec) (i : String) (k k' : ApiKeyRec)
    (hk' : k'.id = i)
    (h : ks.find? (fun x => decide (x.id = i)) = some k) :
    (updateKey ks i k').find? (fun x => decide (x.id = i)) = some k' := by
  induction ks with
  | nil => simp [List.find?] at h
  | cons a t ih =>
    by_cases ha : a.id = i
    · simp only [updateKey, List.map_cons, if_pos ha]
      rw [List.find?_cons_of_pos _ (by simp [hk'])]
    · have h' : t.find? (fun x => decide (x.id = i)) = some k := by
        rwa [List.find?_cons_of_neg _ (by simp [ha])] at h
      simp only [updateKey, List.map_cons, if_neg ha]
      rw [List.find?_cons_of_neg _ (by simp [ha])]
      exact ih h'

theorem generate_ok {s : Store} {userId name rand salt : String} {now : Nat}
    {ip : Option String} {s' : Store} {k : ApiKeyRec} {raw : String}
    (h : generate s userId name rand salt now ip = .ok (s', k, raw)) :
    countActive s.keys userId < MAX_ACTIVE_KEYS
      ∧ k = genRec s userId name rand salt now
      ∧ raw = "ppm_" ++ rand
      ∧ s' = { keys := s.keys ++ [k],
               logs := s.logs ++
                 [{ apiKeyId := k.id, userId := userId, action := .GENERATED,
                    ipAddress := normIp ip, metadata := [] }],
               nextId := s.nextId + 1 } := by
  by_cases hq : MAX_ACTIVE_KEYS ≤ countActive s.keys userId
  · rw [generate_quota hq] at h
    exact absurd h (by simp)
  · have hlt := Nat.lt_of_not_le hq
    rw [generate_ok_eq hlt] at h
    simp only [Except.ok.injEq, Prod.mk.injEq] at h
    obtain ⟨hs', hk, hraw⟩ := h
    exact ⟨hlt, hk.symm, hraw.symm, by rw [← hs', ← hk]⟩

theorem newestFirst_trans (a b c : ApiKeyRec) :
    newestFirst a b = true → newestFirst b c = true →
      newestFirst a c = true := by
  simp only [newestFirst, decide_eq_true_eq]
  omega

theorem newestFirst_total (a b : ApiKeyRec) :
    (newestFirst a b || newestFirst b a) = true := by
  simp only [newestFirst, Bool.or_eq_true, decide_eq_true_eq]
  omega

theorem mem_listKeys_of_mem {s : Store} {userId : String} {k : ApiKeyRec}
    (hk : k ∈ s.keys) (hu : k.userId = userId) :
    viewOf k ∈ listKeys s userId := by
  unfold listKeys
  exact List.mem_map_of_mem viewOf
    (List.mem_mergeSort.mpr (List.mem_filter.mpr ⟨hk, by simp [hu]⟩))

/-!
Concrete fixtures used by the claim witnesses and counterexamples.
-/

def uid1 : String := "64a000000000000000000001"

def uid2 : String := "64a000000000000000000002"

def hex32 : String := "0123456789abcdef0123456789abcdef"

def key1 : ApiKeyRec :=
  { id := mkId 0, keyHash := { input := "ppm_x1", salt := "s1", cost := 10 },
    keyPrefix := "ppm_01234567", name := "K1", userId := uid1,
    status := ApiKeyStatus.ACTIVE, expiresAt := none, revokedAt := none,
    createdAt := 1 }

def key2 : ApiKeyRec := { key1 with id := mkId 1, name := "K2", createdAt := 2 }

def key3 : ApiKeyRec := { key1 with id := mkId 2, name := "K3", createdAt := 3 }

def keyR : ApiKeyRec :=
  { key1 with
      id := mkId 5
      name := "KR"
      status := ApiKeyStatus.REVOKED
      revokedAt := some 4
      createdAt := 4 }

def store3 : Store := { keys := [key1, key2, key3], logs := [], nextId := 3 }

def store1 : Store := { keys := [key1], logs := [], nextId := 1 }

def storeR : Store := { keys := [keyR], logs := [], nextId := 6 }

def key1r : ApiKeyRec :=
  { key1 with status := ApiKeyStatus.REVOKED, revokedAt := some 5 }

def store1r : Store :=
  { keys := [key1r],
    logs := [{ apiKeyId := mkId 0, userId := uid1,
               action := AccessAction.REVOKED, ipAddress := none,
               metadata := [("reason", some "r")] }],
    nextId := 1 }

theorem storeWF_store1 : StoreWF store1 := by
  constructor
  · intro k hk
    simp only [store1, List.mem_singleton] at hk
    exact ⟨0, by decide, by rw [hk]; rfl⟩
  · decide
  · intro u
    rw [show store1.keys = [key1] from rfl, countActive_singleton]
    split <;> decide

/-- C1 counterexample: owner `uid1` holds exactly 3 ACTIVE credentials in
`store3`; rotating `key1` (one of those active credentials, owned by the
caller) does NOT succeed: it is rejected with QuotaExceeded, because
`rotate` calls `generate` — whose quota check counts the still-active old
key — before revoking the old key. -/
theorem C1_counterexample :
    countActive store3.keys uid1 = 3
      ∧ key1 ∈ store3.keys
      ∧ key1.status = ApiKeyStatus.ACTIVE
      ∧ key1.userId = uid1
      ∧ rotate store3 uid1 key1.id none hex32 "salt" 10 none
          = .error .QuotaExceeded := by
  decide

/-- C1 (amended): for every owner at or above the active-key quota ceiling
(3 active credentials), Rotate on one of that owner's active credentials is
rejected with QuotaExceeded rather than succeeding: the quota check inside
the nested generate call runs before the old key is revoked, so the old key
still counts against the quota. -/
theorem C1_rotate_at_ceiling_rejected (s : Store) (userId keyId : String)
    (k : ApiKeyRec) (dtoName : Option String) (rand salt : String)
    (now : Nat) (ip : Option String)
    (hf : findKeyOrFail s keyId userId = .ok k)
    (hact : k.status = ApiKeyStatus.ACTIVE)
    (hq : MAX_ACTIVE_KEYS ≤ countActive s.keys userId) :
    rotate s userId keyId dtoName rand salt now ip
      = .error .QuotaExceeded := by
  unfold rotate
  rw [hf]
  dsimp only
  rw [if_neg (by rw [hact]; simp), generate_quota hq]

/-- C1 witness: the amended theorem applied to the concrete 3-active-keys
store. -/
theorem C1_witness :
    rotate store3 uid1 key1.id (some "N") hex32 "s" 11 none
      = .error .QuotaExceeded :=
  C1_rotate_at_ceiling_rejected store3 uid1 key1.id key1 (some "N") hex32
    "s" 11 none (by decide) (by decide) (by decide)

/-- C2: per-owner quota safety along every request sequence.  Starting from
the empty store, every visible store along any sequence of
generate/revoke/rotate requests — including the store after each individual
persistence write inside a rotate — has at most 3 ACTIVE credentials per
owner (a rotation never transiently exceeds the quota); and from any
well-formed store, no owner's active count ever drops below its pre-rotate
value at any point during a rotate (a rotation never transiently drops
below it). -/
theorem C2_quota_invariant :
    (∀ (ops : List Op), ∀ t ∈ traceStates emptyStore ops, ∀ u,
        countActive t.keys u ≤ MAX_ACTIVE_KEYS)
      ∧ (∀ (s : Store), StoreWF s →
          ∀ (userId keyId : String) (dtoName : Option String)
            (rand salt : String) (now : Nat) (ip : Option String),
          ∀ t ∈ opStates s (Op.rot userId keyId dtoName rand salt now ip),
            ∀ u, countActive s.keys u ≤ countActive t.keys u) :=
  ⟨fun ops => traceStates_quota ops emptyStore storeWF_empty,
   fun _ W userId keyId dtoName rand salt now ip =>
     rotate_no_drop W userId keyId dtoName rand salt now ip⟩

/-- C2 witness: the invariant applied to a concrete one-generate trace and
to a concrete rotate from a one-active-key store. -/
theorem C2_witness :
    countActive
        (stepStore emptyStore (Op.gen uid1 "K1" hex32 "s" 1 none)).keys uid1
      ≤ MAX_ACTIVE_KEYS
    ∧ countActive store1.keys uid1
      ≤ countActive
          (stepStore store1 (Op.rot uid1 (mkId 0) none hex32 "s2" 7 none)).keys
          uid1 :=
  ⟨C2_quota_invariant.1 [Op.gen uid1 "K1" hex32 "s" 1 none] _ (by decide) uid1,
   C2_quota_invariant.2 store1 storeWF_store1 uid1 (mkId 0) none hex32 "s2" 7
     none _ (by decide) uid1⟩

/-- C3 counterexample: rotate is not atomic.  From a one-active-key store,
inject a failure at rotate's third write (the old key's save), i.e. after
the new-key insert and the GENERATED log have committed: the rotate call has
4 writes (so stopping after 2 means the call fails), yet the visible store
differs from the initial one — it holds 2 ACTIVE keys for the owner, the
old credential is still stored unchanged and ACTIVE, one GENERATED event
was appended, and no ROTATED event exists: the old key is not revoked while
a new key was inserted, contradicting all-or-nothing visibility. -/
theorem C3_counterexample :
    (rotateWriteStates store1 uid1 (mkId 0) none hex32 "salt" 9 none).map
        List.length = some 4
      ∧ rotateVisibleAfter 2 store1 uid1 (mkId 0) none hex32 "salt" 9 none
          ≠ store1
      ∧ countActive
          (rotateVisibleAfter 2 store1 uid1 (mkId 0) none hex32 "salt" 9
            none).keys uid1 = 2
      ∧ (rotateVisibleAfter 2 store1 uid1 (mkId 0) none hex32 "salt" 9
          none).keys.find? (fun kk => decide (kk.id = mkId 0)) = some key1
      ∧ key1.status = ApiKeyStatus.ACTIVE
      ∧ (rotateVisibleAfter 2 store1 uid1 (mkId 0) none hex32 "salt" 9
          none).logs.countP
            (fun ev => decide (ev.action = AccessAction.ROTATED)) = 0
      ∧ (rotateVisibleAfter 2 store1 uid1 (mkId 0) none hex32 "salt" 9
          none).logs.countP
            (fun ev => decide (ev.action = AccessAction.GENERATED)) = 1 := by
  decide

/-- C3 (amended): rotate checks all preconditions before its first write,
so a rejected call leaves the store unchanged at every injection point; a
completed call makes all effects visible; but the four writes are not one
atomic unit: whenever the write sequence starts (rotateWriteStates = some),
a failure injected after the second write leaves the new ACTIVE credential
inserted and GENERATED-logged while the old credential is still present
unchanged and ACTIVE, and no ROTATED audit event has been appended. -/
theorem C3_rotate_not_atomic :
    (∀ (s : Store) (userId keyId : String) (dtoName : Option String)
        (rand salt : String) (now : Nat) (ip : Option String) (e : ApiError),
        rotate s userId keyId dtoName rand salt now ip = .error e →
          ∀ j, rotateVisibleAfter j s userId keyId dtoName rand salt now ip
            = s)
      ∧ (∀ (s : Store) (userId keyId : String) (dtoName : Option String)
          (rand salt : String) (now : Nat) (ip : Option String)
          (l : List Store),
          rotateWriteStates s userId keyId dtoName rand salt now ip = some l →
            ∃ old ∈ s.keys, old.status = ApiKeyStatus.ACTIVE
              ∧ ∃ nk, nk.status = ApiKeyStatus.ACTIVE
              ∧ rotateVisibleAfter 2 s userId keyId dtoName rand salt now ip
                  = { keys := s.keys ++ [nk],
                      logs := s.logs ++
                        [{ apiKeyId := nk.id, userId := userId,
                           action := .GENERATED, ipAddress := normIp ip,
                           metadata := [] }],
                      nextId := s.nextId + 1 }
              ∧ old ∈ (rotateVisibleAfter 2 s userId keyId dtoName rand salt
                  now ip).keys
              ∧ (rotateVisibleAfter 2 s userId keyId dtoName rand salt now
                  ip).logs.countP
                    (fun ev => decide (ev.action = AccessAction.ROTATED))
                  = s.logs.countP
                    (fun ev => decide (ev.action = AccessAction.ROTATED)))
      ∧ (∀ (s : Store) (userId keyId : String) (dtoName : Option String)
          (rand salt : String) (now : Nat) (ip : Option String)
          (l : List Store),
          rotateWriteStates s userId keyId dtoName rand salt now ip = some l →
            ∃ r, rotate s userId keyId dtoName rand salt now ip = .ok r
              ∧ r.1 = l.getLastD s) := by
  refine ⟨?_, ?_, ?_⟩
  · intro s userId keyId dtoName rand salt now ip e h j
    have hw := (rotate_error_cases h).1
    simp [rotateVisibleAfter, hw]
  · intro s userId keyId dtoName rand salt now ip l h
    obtain ⟨old, hf, hact, hlt, nk, oldRev, genEv, rotEv, hnk, hrev,
      hgenEv, hrotEv, hl, hrot⟩ := rotateWriteStates_some h
    obtain ⟨hv, hmem, hkid, howner, hfind⟩ := findKeyOrFail_ok hf
    have hvis : rotateVisibleAfter 2 s userId keyId dtoName rand salt now ip
        = { keys := s.keys ++ [nk], logs := s.logs ++ [genEv],
            nextId := s.nextId + 1 } := by
      simp [rotateVisibleAfter, h, hl]
    refine ⟨old, hmem, hact, nk, by rw [hnk]; rfl, ?_, ?_, ?_⟩
    · rw [hvis, hgenEv]
    · rw [hvis]
      exact List.mem_append_left _ hmem
    · rw [hvis]
      dsimp only
      rw [List.countP_append, hgenEv]
      simp
  · intro s userId keyId dtoName rand salt now ip l h
    obtain ⟨old, hf, hact, hlt, nk, oldRev, genEv, rotEv, hnk, hrev,
      hgenEv, hrotEv, hl, hrot⟩ := rotateWriteStates_some h
    refine ⟨_, hrot, ?_⟩
    rw [hl]
    rfl

/-- C3 witness: the amended theorem applied to a concrete rejected rotate
(owner mismatch, no write happens at any injection point), plus the
concrete partial-failure divergence. -/
theorem C3_witness :
    rotateVisibleAfter 1 store3 uid2 key1.id none hex32 "s" 3 none = store3
      ∧ rotateVisibleAfter 2 store1 uid1 (mkId 0) none hex32 "s" 9 none
          ≠ store1 :=
  ⟨C3_rotate_not_atomic.1 store3 uid2 key1.id none hex32 "s" 3 none
      .AccessDenied (by decide) 1,
   by decide⟩

/-- C4: revoke checks its preconditions in order — (a) malformed id gives
InvalidIdentity, (b) missing credential gives NotFound, (c) foreign owner
gives AccessDenied, (d) already-revoked status gives AlreadyRevoked — the
first failing check determines the error; and a second revoke of a
just-revoked credential always fails with AlreadyRevoked, never silently
succeeding. -/
theorem C4_revoke_precondition_order :
    (∀ (s : Store) (userId keyId : String) (reason : Option String)
        (now : Nat) (ip : Option String),
        isValidObjectId keyId = false →
          revoke s userId keyId reason now ip = .error .InvalidIdentity)
      ∧ (∀ (s : Store) (userId keyId : String) (reason : Option String)
          (now : Nat) (ip : Option String),
          isValidObjectId keyId = true →
            s.keys.find? (fun kk => decide (kk.id = keyId)) = none →
              revoke s userId keyId reason now ip = .error .NotFound)
      ∧ (∀ (s : Store) (userId keyId : String) (reason : Option String)
          (now : Nat) (ip : Option String) (k : ApiKeyRec),
          isValidObjectId keyId = true →
            s.keys.find? (fun kk => decide (kk.id = keyId)) = some k →
              k.userId ≠ userId →
                revoke s userId keyId reason now ip = .error .AccessDenied)
      ∧ (∀ (s : Store) (userId keyId : String) (reason : Option String)
          (now : Nat) (ip : Option String) (k : ApiKeyRec),
          isValidObjectId keyId = true →
            s.keys.find? (fun kk => decide (kk.id = keyId)) = some k →
              k.userId = userId →
                k.status = ApiKeyStatus.REVOKED →
                  revoke s userId keyId reason now ip
                    = .error .AlreadyRevoked)
      ∧ (∀ (s : Store) (userId keyId : String) (reason : Option String)
          (now : Nat) (ip : Option String) (s' : Store) (k' : ApiKeyRec)
          (reason2 : Option String) (now2 : Nat) (ip2 : Option String),
          revoke s userId keyId reason now ip = .ok (s', k') →
            revoke s' userId keyId reason2 now2 ip2
              = .error .AlreadyRevoked) := by
  refine ⟨?_, ?_, ?_, ?_, ?_⟩
  · intro s userId keyId reason now ip h
    simp [revoke, findKeyOrFail, h]
  · intro s userId keyId reason now ip h1 h2
    simp [revoke, findKeyOrFail, h1, h2]
  · intro s userId keyId reason now ip k h1 h2 h3
    simp [revoke, findKeyOrFail, h1, h2, h3]
  · intro s userId keyId reason now ip k h1 h2 h3 h4
    simp [revoke, findKeyOrFail, h1, h2, h3, h4]
  · intro s userId keyId reason now ip s' k' reason2 now2 ip2 h
    obtain ⟨k, hf, hact, hk', hs'⟩ := revoke_ok h
    obtain ⟨hv, hmem, hkid, howner, hfind⟩ := findKeyOrFail_ok hf
    have hfind' : s'.keys.find? (fun kk => decide (kk.id = keyId))
        = some k' := by
      rw [hs']
      dsimp only
      rw [← hkid]
      exact find?_updateKey s.keys k.id k k' (by rw [hk']) (by rw [hkid]; exact hfind)
    have hu' : k'.userId = userId := by rw [hk']; exact howner
    have hst' : k'.status = ApiKeyStatus.REVOKED := by rw [hk']
    simp [revoke, findKeyOrFail, hv, hfind', hu', hst']

/-- C4 witness: the four precondition errors and the double-revoke case,
each at a concrete store. -/
theorem C4_witness :
    revoke store1 uid1 "not-a-valid-id" none 5 none
        = .error .InvalidIdentity
      ∧ revoke store1 uid1 (mkId 9) none 5 none = .error .NotFound
      ∧ revoke store3 uid2 key1.id none 5 none = .error .AccessDenied
      ∧ revoke storeR uid1 keyR.id none 5 none = .error .AlreadyRevoked
      ∧ revoke store1r uid1 (mkId 0) none 6 none
          = .error .AlreadyRevoked :=
  ⟨C4_revoke_precondition_order.1 store1 uid1 "not-a-valid-id" none 5 none
      (by decide),
   C4_revoke_precondition_order.2.1 store1 uid1 (mkId 9) none 5 none
      (by decide) (by decide),
   C4_revoke_precondition_order.2.2.1 store3 uid2 key1.id none 5 none key1
      (by decide) (by decide) (by decide),
   C4_revoke_precondition_order.2.2.2.1 storeR uid1 keyR.id none 5 none keyR
      (by decide) (by decide) rfl rfl,
   C4_revoke_precondition_order.2.2.2.2 store1 uid1 (mkId 0) (some "r") 5
      none store1r key1r none 6 none (by decide)⟩

/-- C5: generate rejects with QuotaExceeded and performs no write when the
owner already has 3 or more active credentials; otherwise it inserts
exactly one new ACTIVE credential with null expiry owned by the caller,
appends exactly one GENERATED audit event referencing the new id and the
owner, and returns the created record together with the raw secret. -/
theorem C5_generate_spec :
    (∀ (s : Store) (userId name rand salt : String) (now : Nat)
        (ip : Option String),
        MAX_ACTIVE_KEYS ≤ countActive s.keys userId →
          generate s userId name rand salt now ip = .error .QuotaExceeded
            ∧ generateWriteStates s userId name rand salt now ip = none)
      ∧ (∀ (s : Store) (userId name rand salt : String) (now : Nat)
          (ip : Option String),
          countActive s.keys userId < MAX_ACTIVE_KEYS →
            ∃ k, generate s userId name rand salt now ip
                = .ok ({ keys := s.keys ++ [k],
                         logs := s.logs ++
                           [{ apiKeyId := k.id, userId := userId,
                              action := .GENERATED, ipAddress := normIp ip,
                              metadata := [] }],
                         nextId := s.nextId + 1 }, k, "ppm_" ++ rand)
              ∧ k.status = ApiKeyStatus.ACTIVE ∧ k.expiresAt = none
              ∧ k.userId = userId ∧ k.name = name ∧ k.createdAt = now) := by
  refine ⟨?_, ?_⟩
  · intro s userId name rand salt now ip h
    exact ⟨generate_quota h, generateWriteStates_none_iff.mpr h⟩
  · intro s userId name rand salt now ip h
    exact ⟨genRec s userId name rand salt now, generate_ok_eq h,
      rfl, rfl, rfl, rfl, rfl⟩

/-- C5 witness: the quota rejection at a 3-active-keys store and a
successful generation from the empty store. -/
theorem C5_witness :
    generate store3 uid1 "X" hex32 "s" 5 none = .error .QuotaExceeded
      ∧ generateWriteStates store3 uid1 "X" hex32 "s" 5 none = none
      ∧ (generate emptyStore uid1 "K" hex32 "s" 1 none).isOk = true := by
  refine ⟨(C5_generate_spec.1 store3 uid1 "X" hex32 "s" 5 none (by decide)).1,
          (C5_generate_spec.1 store3 uid1 "X" hex32 "s" 5 none (by decide)).2,
          ?_⟩
  obtain ⟨k, hgen, -⟩ :=
    C5_generate_spec.2 emptyStore uid1 "K" hex32 "s" 1 none (by decide)
  rw [hgen]
  rfl

/-- C6: every error any operation returns is a precondition error raised
before the first persistence write (so a failed precondition leaves both
the key store and the audit log unchanged — e.g. owner B revoking owner A's
key fails AccessDenied with nothing written), and every completed credential
mutation is paired with exactly one audit append in the same operation:
generate appends one GENERATED event for its one insert, revoke one REVOKED
event for its one status update, rotate one GENERATED plus one ROTATED
event for its insert plus its revocation. -/
theorem C6_preconditions_before_writes :
    (∀ (s : Store) (userId name rand salt : String) (now : Nat)
        (ip : Option String) (e : ApiError),
        generate s userId name rand salt now ip = .error e →
          e = .QuotaExceeded
            ∧ generateWriteStates s userId name rand salt now ip = none)
      ∧ (∀ (s : Store) (userId keyId : String) (reason : Option String)
          (now : Nat) (ip : Option String) (e : ApiError),
          revoke s userId keyId reason now ip = .error e →
            revokeWriteStates s userId keyId reason now ip = none
              ∧ (e = .InvalidIdentity ∨ e = .NotFound ∨ e = .AccessDenied
                  ∨ e = .AlreadyRevoked))
      ∧ (∀ (s : Store) (userId keyId : String) (dtoName : Option String)
          (rand salt : String) (now : Nat) (ip : Option String)
          (e : ApiError),
          rotate s userId keyId dtoName rand salt now ip = .error e →
            rotateWriteStates s userId keyId dtoName rand salt now ip = none
              ∧ (e = .InvalidIdentity ∨ e = .NotFound ∨ e = .AccessDenied
                  ∨ e = .CannotRotateRevoked ∨ e = .QuotaExceeded))
      ∧ (∀ (s : Store) (userId name rand salt : String) (now : Nat)
          (ip : Option String) (s' : Store) (k : ApiKeyRec) (raw : String),
          generate s userId name rand salt now ip = .ok (s', k, raw) →
            s'.keys = s.keys ++ [k]
              ∧ s'.logs = s.logs ++
                  [{ apiKeyId := k.id, userId := userId,
                     action := .GENERATED, ipAddress := normIp ip,
                     metadata := [] }])
      ∧ (∀ (s : Store) (userId keyId : String) (reason : Option String)
          (now : Nat) (ip : Option String) (s' : Store) (k' : ApiKeyRec),
          revoke s userId keyId reason now ip = .ok (s', k') →
            s'.keys = updateKey s.keys k'.id k'
              ∧ s'.logs = s.logs ++
                  [{ apiKeyId := k'.id, userId := userId,
                     action := .REVOKED, ipAddress := normIp ip,
                     metadata := [("reason", reason)] }])
      ∧ (∀ (s : Store) (userId keyId : String) (dtoName : Option String)
          (rand salt : String) (now : Nat) (ip : Option String) (s' : Store)
          (nk : ApiKeyRec) (raw : String) (old' : ApiKeyRec),
          rotate s userId keyId dtoName rand salt now ip
              = .ok (s', nk, raw, old') →
            s'.keys = updateKey (s.keys ++ [nk]) old'.id old'
              ∧ s'.logs = (s.logs ++
                  [{ apiKeyId := nk.id, userId := userId,
                     action := .GENERATED, ipAddress := normIp ip,
                     metadata := [] }]) ++
                  [{ apiKeyId := old'.id, userId := userId,
                     action := .ROTATED, ipAddress := normIp ip,
                     metadata := [("newKeyId", some nk.id)] }]) := by
  refine ⟨?_, ?_, ?_, ?_, ?_, ?_⟩
  · intro s userId name rand salt now ip e h
    obtain ⟨he, hq⟩ := generate_error h
    exact ⟨he, generateWriteStates_none_iff.mpr hq⟩
  · intro s userId keyId reason now ip e h
    exact revoke_error_cases h
  · intro s userId keyId dtoName rand salt now ip e h
    exact rotate_error_cases h
  · intro s userId name rand salt now ip s' k raw h
    obtain ⟨-, -, -, hs'⟩ := generate_ok h
    exact ⟨by rw [hs'], by rw [hs']⟩
  · intro s userId keyId reason now ip s' k' h
    obtain ⟨k, hf, hact, hk', hs'⟩ := revoke_ok h
    have hid : k'.id = k.id := by rw [hk']
    rw [hs', hid]
    exact ⟨rfl, rfl⟩
  · intro s userId keyId dtoName rand salt now ip s' nk raw old' h
    obtain ⟨old, hf, hact, hlt, hnk, hraw, hold', hs'⟩ := rotate_ok h
    have hid : old'.id = old.id := by rw [hold']
    rw [hs', hid]
    exact ⟨rfl, rfl⟩

/-- C6 witness: a cross-owner revoke and an over-quota generate, each
rejected with no write performed. -/
theorem C6_witness :
    revokeWriteStates store3 uid2 key1.id none 3 none = none
      ∧ generateWriteStates store3 uid1 "X" hex32 "s" 5 none = none :=
  ⟨(C6_preconditions_before_writes.2.1 store3 uid2 key1.id none 3 none
      .AccessDenied (by decide)).1,
   (C6_preconditions_before_writes.1 store3 uid1 "X" hex32 "s" 5 none
      .QuotaExceeded (by decide)).2⟩

/-- C7: list returns only the caller's credentials (each returned view is
the view of a stored credential of that owner), ordered newest first by
createdAt descending, and the returned view carries no secretHash: it is
invariant under any change of the stored keyHash. -/
theorem C7_list_spec :
    (∀ (s : Store) (userId : String) (v : ApiKeyView),
        v ∈ listKeys s userId →
          ∃ k, k ∈ s.keys ∧ k.userId = userId ∧ v = viewOf k)
      ∧ (∀ (s : Store) (userId : String),
          (listKeys s userId).Pairwise fun a b => b.createdAt ≤ a.createdAt)
      ∧ (∀ (k : ApiKeyRec) (h : BcryptHash),
          viewOf { k with keyHash := h } = viewOf k) := by
  refine ⟨?_, ?_, ?_⟩
  · intro s userId v hv
    unfold listKeys at hv
    obtain ⟨k, hk, hvk⟩ := List.mem_map.mp hv
    have hk' := List.mem_filter.mp (List.mem_mergeSort.mp hk)
    exact ⟨k, hk'.1, by simpa using hk'.2, hvk.symm⟩
  · intro s userId
    unfold listKeys
    exact List.Pairwise.map viewOf
      (fun a b h => by simpa [newestFirst] using h)
      (List.sorted_mergeSort newestFirst_trans newestFirst_total _)
  · intro k h
    rfl

/-- C7 witness: the three parts of the list contract at the concrete
3-key store. -/
theorem C7_witness :
    viewOf key1 ∈ store3.keys.map viewOf
      ∧ (listKeys store3 uid1).Pairwise
          (fun a b => b.createdAt ≤ a.createdAt)
      ∧ viewOf { key1 with
          keyHash := { input := "z", salt := "y", cost := 4 } }
          = viewOf key1 := by
  refine ⟨?_, C7_list_spec.2.1 store3 uid1, C7_list_spec.2.2 key1 _⟩
  obtain ⟨k, hk, -, hv⟩ := C7_list_spec.1 store3 uid1 (viewOf key1)
    (mem_listKeys_of_mem (by decide) rfl)
  rw [hv]
  exact List.mem_map_of_mem viewOf hk

/-- C9: list is not filtered by status: every credential of the owner,
REVOKED ones included, appears in the listing, and the returned view keeps
the stored revokedAt and status. -/
theorem C9_list_includes_revoked :
    ∀ (s : Store) (userId : String) (k : ApiKeyRec),
      k ∈ s.keys → k.userId = userId →
        viewOf k ∈ listKeys s userId
          ∧ (viewOf k).revokedAt = k.revokedAt
          ∧ (viewOf k).status = k.status :=
  fun _ _ _ hk hu => ⟨mem_listKeys_of_mem hk hu, rfl, rfl⟩

/-- C9 witness: a REVOKED credential with its revokedAt set appears in the
owner's listing. -/
theorem C9_witness :
    viewOf keyR ∈ listKeys storeR uid1
      ∧ (viewOf keyR).revokedAt = keyR.revokedAt
      ∧ (viewOf keyR).status = keyR.status
      ∧ keyR.status = ApiKeyStatus.REVOKED
      ∧ keyR.revokedAt = some 4 := by
  have h := C9_list_includes_revoked storeR uid1 keyR (by decide) rfl
  exact ⟨h.1, h.2.1, h.2.2, rfl, rfl⟩

theorem strTake_ppm_tag (rand : String) : strTake ("ppm_" ++ rand) 4 = "ppm_" := by
  rw [strTake, String.data_append,
    show (4 : Nat) = "ppm_".data.length from rfl, List.take_left]

/-- C8: every issued secret, in generate and in rotate, is the fixed tag
`ppm_` followed by the 32-hex-character random portion (128 bits of
capacity, at least the required 122 bits when the portion is a full
32-hex-char draw), the stored prefix is the first 12 characters of the full
tagged secret, and the stored hash is the salted adaptive bcrypt hash of
the raw secret at cost 10 (at least the required 10). -/
theorem C8_secret_format :
    (∀ (s : Store) (userId name rand salt : String) (now : Nat)
        (ip : Option String) (s' : Store) (k : ApiKeyRec) (raw : String),
        generate s userId name rand salt now ip = .ok (s', k, raw) →
          raw = "ppm_" ++ rand
            ∧ strTake raw 4 = "ppm_"
            ∧ k.keyPrefix = strTake raw 12
            ∧ k.keyHash = { input := raw, salt := salt, cost := 10 }
            ∧ 10 ≤ k.keyHash.cost
            ∧ (rand.length = 32 → raw.length = 36 ∧ 122 ≤ 4 * rand.length))
      ∧ (∀ (s : Store) (userId keyId : String) (dtoName : Option String)
          (rand salt : String) (now : Nat) (ip : Option String) (s' : Store)
          (nk : ApiKeyRec) (raw : String) (old' : ApiKeyRec),
          rotate s userId keyId dtoName rand salt now ip
              = .ok (s', nk, raw, old') →
            raw = "ppm_" ++ rand
              ∧ strTake raw 4 = "ppm_"
              ∧ nk.keyPrefix = strTake raw 12
              ∧ nk.keyHash = { input := raw, salt := salt, cost := 10 }
              ∧ 10 ≤ nk.keyHash.cost
              ∧ (rand.length = 32 →
                  raw.length = 36 ∧ 122 ≤ 4 * rand.length)) := by
  refine ⟨?_, ?_⟩
  · intro s userId name rand salt now ip s' k raw h
    obtain ⟨-, hk, hraw, -⟩ := generate_ok h
    subst hraw
    refine ⟨rfl, strTake_ppm_tag rand, by rw [hk]; rfl, by rw [hk]; rfl,
      by rw [hk]; rfl, ?_⟩
    intro h32
    rw [String.length_append, show "ppm_".length = 4 from rfl, h32]
    omega
  · intro s userId keyId dtoName rand salt now ip s' nk raw old' h
    obtain ⟨old, hf, hact, hlt, hnk, hraw, -, -⟩ := rotate_ok h
    subst hraw
    refine ⟨rfl, strTake_ppm_tag rand, by rw [hnk]; rfl, by rw [hnk]; rfl,
      by rw [hnk]; rfl, ?_⟩
    intro h32
    rw [String.length_append, show "ppm_".length = 4 from rfl, h32]
    omega

/-- C8 witness: the secret-format facts at a concrete generation from the
empty store, with the 32-hex oracle input. -/
theorem C8_witness :
    10 ≤ (genRec emptyStore uid1 "K" hex32 "ss" 1).keyHash.cost
      ∧ ("ppm_" ++ hex32).length = 36 := by
  have h := C8_secret_format.1 emptyStore uid1 "K" hex32 "ss" 1 none _ _ _
    (generate_ok_eq (by decide))
  exact ⟨h.2.2.2.2.1, (h.2.2.2.2.2 (by decide)).1⟩

/-- Checks, on a rotate result, that the new key's name is the old key's
name with the rotated suffix. -/
def rotNameOk (r : Except ApiError (Store × ApiKeyRec × String × ApiKeyRec)) :
    Bool :=
  match r with
  | .ok (_, nk, _, old') => decide (nk.name = old'.name ++ " (rotated)")
  | .error _ => false

/-- C10: supplying the empty string as the new display name of a rotation
behaves exactly as supplying no name: the rotate results coincide, the
fallback name is the old name with the rotated suffix, and every successful
empty-name rotation names the new credential after the old one. -/
theorem C10_empty_name_defaults :
    (∀ (s : Store) (userId keyId : String) (rand salt : String) (now : Nat)
        (ip : Option String),
        rotate s userId keyId (some "") rand salt now ip
          = rotate s userId keyId none rand salt now ip)
      ∧ (∀ oldName : String,
          rotateNewName (some "") oldName = oldName ++ " (rotated)")
      ∧ (∀ (s : Store) (userId keyId : String) (rand salt : String)
          (now : Nat) (ip : Option String) (s' : Store) (nk : ApiKeyRec)
          (raw : String) (old' : ApiKeyRec),
          rotate s userId keyId (some "") rand salt now ip
              = .ok (s', nk, raw, old') →
            nk.name = old'.name ++ " (rotated)") := by
  refine ⟨?_, ?_, ?_⟩
  · intro s userId keyId rand salt now ip
    unfold rotate
    cases hf : findKeyOrFail s keyId userId with
    | error e => rfl
    | ok old =>
      dsimp only
      rw [show rotateNewName (some "") old.name
          = rotateNewName none old.name from by simp [rotateNewName]]
  · intro oldName
    simp [rotateNewName]
  · intro s userId keyId rand salt now ip s' nk raw old' h
    obtain ⟨old, hf, hact, hlt, hnk, hraw, hold', -⟩ := rotate_ok h
    rw [hnk, hold']
    simp [genRec, rotateNewName]

/-- C10 witness: the empty-name and no-name rotations coincide on a
concrete store, and the concrete successful empty-name rotation names the
new key after the old one. -/
theorem C10_witness :
    rotate store1 uid1 (mkId 0) (some "") hex32 "s" 9 none
        = rotate store1 uid1 (mkId 0) none hex32 "s" 9 none
      ∧ rotateNewName (some "") "K1" = "K1 (rotated)"
      ∧ rotNameOk (rotate store1 uid1 (mkId 0) (some "") hex32 "s" 9 none)
          = true := by
  refine ⟨C10_empty_name_defaults.1 store1 uid1 (mkId 0) hex32 "s" 9 none,
          C10_empty_name_defaults.2.1 "K1", ?_⟩
  cases hr : rotate store1 uid1 (mkId 0) (some "") hex32 "s" 9 none with
  | error e =>
    have hok : (rotate store1 uid1 (mkId 0) (some "") hex32 "s" 9
        none).isOk = true := by decide
    rw [hr] at hok
    simp [Except.isOk, Except.toBool] at hok
  | ok r =>
    obtain ⟨S, nk, raw, old'⟩ := r
    have hname := C10_empty_name_defaults.2.2 store1 uid1 (mkId 0) hex32 "s"
      9 none S nk raw old' hr
    simp [rotNameOk, hname]

end PPM
